import Mathlib

/-!
Verification development for the Streaming-Recommender-System repository.

The repository contains two exploratory notebooks:
- a MovieLens notebook (src/unnamed/part_000) that pivots a ratings table,
  runs a truncated SVD, and recommends the highest-predicted unrated movies
  via the function recommend_movies;
- a Netflix notebook (src/Research Paper/net_recom.ipynb) that cleans and
  trims the Netflix ratings table by review-count quantile benchmarks and
  delegates prediction to a third-party SVD library.

Part 1 embeds recommend_movies from the MovieLens notebook.
Part 2 embeds the data-slicing (trim) step of the Netflix notebook.
Part 3 models the rating-store / factorization / predictor core that the
specification describes; the training and prediction code itself lives in
third-party libraries (scipy svds, surprise SVD), not in this repository,
so those definitions are modelled from the specification text.
-/

namespace MovieLens

/-- A row of ratings_df in the MovieLens notebook: columns UserID, MovieID,
Rating, Timestamp, all parsed with dtype int. -/
structure MLRow where
  userID : Nat
  movieID : Nat
  rating : Int
  timestamp : Nat
deriving DecidableEq

/-- A row of movies_df: columns MovieID, Title, Genres. -/
structure Movie where
  movieID : Nat
  title : String
  genres : String
deriving DecidableEq

/-- The MovieID column of user_data, where
user_data = original_ratings_df[original_ratings_df.UserID == userID].
The notebook then left-merges user_data with movies_df on MovieID into
user_full; since movies_df has unique MovieID keys, the left merge keeps
exactly one output row per user_data row with the MovieID value unchanged,
so the MovieID column of user_full is the one modelled here. -/
def ratedMovieIds (ratings : List MLRow) (userID : Nat) : List Nat :=
  (ratings.filter (fun r => decide (r.userID = userID))).map (fun r => r.movieID)

/-- Embedding of recommend_movies from the MovieLens notebook (the
recommendations component of its return value; the user_full component is a
presentation-only listing of the rows selected by ratedMovieIds).

Source steps modelled:
- user_row_number = userID - 1 selects the prediction row;
- preds is the predictions table (preds_df), a score for every movie column,
  indexed by user row number then MovieID;
- candidates = movies_df rows whose MovieID is not in user_full MovieID
  (the isin filter with tilde negation);
- the left merge with the sorted per-user predictions attaches the score
  column while keeping the candidate row order (left-merge on the unique
  MovieID key preserves left order), then sort_values on the Predictions
  column descending; sort_values with its default kind quicksort guarantees
  only a permutation sorted descending by that key and leaves the relative
  order of tied rows unspecified, so this functional model fixes one
  admissible refinement (a stable sort) while recommendRel below captures
  the full contract; properties proved from this definition alone therefore
  hold only up to tie order;
- iloc up to num_recommendations takes the first rows (the column slice
  dropping the score column is presentation only). -/
def recommend_movies (preds : Nat → Nat → ℚ) (userID : Nat) (movies : List Movie)
    (ratings : List MLRow) (num_recommendations : Nat) : List Movie :=
  ((movies.filter (fun m => !decide (m.movieID ∈ ratedMovieIds ratings userID))).insertionSort
      (fun a b => preds (userID - 1) b.movieID ≤ preds (userID - 1) a.movieID)).take
    num_recommendations

/-- Ordering described by the specification for the recommendation list:
a comes before b when its predicted score is strictly higher, or the scores
are equal and a has the smaller item id (descending score, ties broken by
ascending item id). -/
abbrev specTieOrder (p : Nat → ℚ) (a b : Movie) : Prop :=
  p b.movieID < p a.movieID ∨ (p a.movieID = p b.movieID ∧ a.movieID < b.movieID)

/-- Written from the words of the specification for recommend: score every
candidate item not already rated by the user, sort descending by predicted
score with ties broken by ascending item id, return the first topN. -/
def recommendSpec (preds : Nat → Nat → ℚ) (userID : Nat) (movies : List Movie)
    (ratings : List MLRow) (topN : Nat) : List Movie :=
  ((movies.filter (fun m => !decide (m.movieID ∈ ratedMovieIds ratings userID))).insertionSort
      (specTieOrder (preds (userID - 1)))).take topN

/-- Descending comparison on the predicted-score key: a may come before b
when the score of b does not exceed the score of a.  This is the only
ordering constraint the sort_values call imposes on its output. -/
abbrev descScore (p : Nat → ℚ) (a b : Movie) : Prop :=
  p b.movieID ≤ p a.movieID

/-- Relational embedding of recommend_movies that captures exactly what the
source guarantees about the sort step: sort_values with the default kind
quicksort returns some permutation of the unrated candidates that is sorted
descending by the Predictions key, and the relative order of rows with equal
predictions is unspecified.  An output list is code-consistent when it is
the topN prefix of such a permutation. -/
def recommendRel (preds : Nat → Nat → ℚ) (userID : Nat) (movies : List Movie)
    (ratings : List MLRow) (topN : Nat) (out : List Movie) : Prop :=
  ∃ sorted : List Movie,
    sorted.Perm (movies.filter (fun m => !decide (m.movieID ∈ ratedMovieIds ratings userID)))
    ∧ sorted.Sorted (descScore (preds (userID - 1)))
    ∧ out = sorted.take topN

/-- Concrete predictions table used by witnesses. -/
def predsW : Nat → Nat → ℚ := fun _ m => if m = 2 then 3 else 1

/-- Concrete movies table used by witnesses (ascending MovieID, as in
movies_df). -/
def moviesW : List Movie :=
  [⟨1, "Toy Story", "Animation"⟩, ⟨2, "Jumanji", "Adventure"⟩, ⟨3, "Grumpier", "Comedy"⟩]

/-- Concrete ratings table used by witnesses: user 1 has rated movie 1. -/
def ratingsW : List MLRow := [⟨1, 1, 5, 0⟩]

end MovieLens

namespace Netflix

/-- A cleaned row of the Netflix notebook dataframe df after the Movie_Id
column is attached: columns Cust_Id, Rating (a float), Movie_Id. -/
structure NfRow where
  custId : Nat
  rating : ℚ
  movieId : Nat
deriving DecidableEq

/-- Review count of a movie in a dataframe: the count aggregate of the
groupby on Movie_Id, evaluated at one movie id. -/
def movieReviewCount (df : List NfRow) (m : Nat) : Nat :=
  (df.filter (fun r => decide (r.movieId = m))).length

/-- Review count of a customer: the count aggregate of the groupby on
Cust_Id, evaluated at one customer id. -/
def custReviewCount (df : List NfRow) (c : Nat) : Nat :=
  (df.filter (fun r => decide (r.custId = c))).length

/-- The distinct movie ids of the dataframe: the index of df_movie_summary. -/
def movieIdList (df : List NfRow) : List Nat :=
  (df.map (fun r => r.movieId)).dedup

/-- The distinct customer ids of the dataframe: the index of df_cust_summary. -/
def custIdList (df : List NfRow) : List Nat :=
  (df.map (fun r => r.custId)).dedup

/-- Python 2 round(x, 0): round half away from zero. -/
def pyRound (q : ℚ) : ℚ :=
  if q < 0 then -((⌊-q + 1 / 2⌋ : ℤ) : ℚ) else ((⌊q + 1 / 2⌋ : ℤ) : ℚ)

/-- pandas Series.quantile(0.8) with the default linear interpolation:
sort the values, take position 0.8 * (n - 1), and interpolate linearly
between the two neighbouring order statistics. -/
def quantile08 (values : List ℚ) : ℚ :=
  let sorted := values.insertionSort (fun a b => a ≤ b)
  let n := sorted.length
  if n = 0 then 0
  else
    let pos : ℚ := 4 / 5 * ((n : ℚ) - 1)
    let i : Nat := (⌊pos⌋ : ℤ).toNat
    let lo := sorted.getD i 0
    let hi := sorted.getD (i + 1) lo
    lo + (pos - (i : ℚ)) * (hi - lo)

/-- movie_benchmark = round(df_movie_summary count column quantile(0.8), 0),
computed on the pre-trim dataframe. -/
def movieBenchmark (df : List NfRow) : ℚ :=
  pyRound (quantile08 ((movieIdList df).map (fun m => (movieReviewCount df m : ℚ))))

/-- cust_benchmark = round(df_cust_summary count column quantile(0.8), 0),
computed on the pre-trim dataframe. -/
def custBenchmark (df : List NfRow) : ℚ :=
  pyRound (quantile08 ((custIdList df).map (fun c => (custReviewCount df c : ℚ))))

/-- drop_movie_list: the movie ids whose review count is below the
benchmark. -/
def dropMovieList (df : List NfRow) (benchmark : ℚ) : List Nat :=
  (movieIdList df).filter (fun m => decide ((movieReviewCount df m : ℚ) < benchmark))

/-- drop_cust_list: the customer ids whose review count is below the
benchmark. -/
def dropCustList (df : List NfRow) (benchmark : ℚ) : List Nat :=
  (custIdList df).filter (fun c => decide ((custReviewCount df c : ℚ) < benchmark))

/-- The trim step of the Netflix notebook: both benchmarks and both drop
lists are computed from the pre-trim dataframe, then the rows whose Movie_Id
is in drop_movie_list are removed, then the rows whose Cust_Id is in
drop_cust_list are removed (the isin filters with tilde negation). -/
def trimmed (df : List NfRow) : List NfRow :=
  (df.filter (fun r => !decide (r.movieId ∈ dropMovieList df (movieBenchmark df)))).filter
    (fun r => !decide (r.custId ∈ dropCustList df (custBenchmark df)))

end Netflix

namespace SpecCore

/-- Modelled from the spec: the error taxonomy of the core.  The training
and prediction code of the repository is delegated to third-party libraries
(scipy svds, surprise SVD), so this error taxonomy exists only in the
specification. -/
inductive RecError where
  | invalidRatingError
  | unknownEntityError
  | emptyDatasetError
deriving DecidableEq

/-- Modelled from the spec: a RatingRecord triple.  The rating, a double in
the source material, is modelled as a rational number. -/
structure RatingRecord where
  user_id : Nat
  item_id : Nat
  rating : ℚ
deriving DecidableEq

/-- Modelled from the spec: the RatingStore with its configured valid rating
range and the stored records. -/
structure RatingStore where
  minRating : ℚ
  maxRating : ℚ
  records : List RatingRecord
deriving DecidableEq

/-- Two records address the same (user_id, item_id) cell. -/
def sameKey (u i : Nat) (rec : RatingRecord) : Prop :=
  rec.user_id = u ∧ rec.item_id = i

instance sameKeyDec (u i : Nat) : DecidablePred (sameKey u i) := fun rec => by
  unfold sameKey
  exact inferInstance

/-- Modelled from the spec: insert or overwrite the record for one
(user_id, item_id) pair; a later ingestion of a duplicate overwrites the
earlier value. -/
def upsertRecord (u i : Nat) (r : ℚ) : List RatingRecord → List RatingRecord
  | [] => [⟨u, i, r⟩]
  | a :: t => if sameKey u i a then ⟨u, i, r⟩ :: t else a :: upsertRecord u i r t

/-- Modelled from the spec: ingest(user_id, item_id, rating) inserts or
overwrites a RatingRecord and fails with InvalidRatingError when the rating
is outside the configured valid range. -/
def ingest (s : RatingStore) (u i : Nat) (r : ℚ) : Except RecError RatingStore :=
  if r < s.minRating ∨ s.maxRating < r then Except.error RecError.invalidRatingError
  else Except.ok { s with records := upsertRecord u i r s.records }

/-- The store that results from an ingest call: the new store on success,
the unchanged store on failure. -/
def ingestD (s : RatingStore) (u i : Nat) (r : ℚ) : RatingStore :=
  match ingest s u i r with
  | Except.ok s2 => s2
  | Except.error _ => s

/-- The stored rating of one (user_id, item_id) pair, when present. -/
def lookupRating (s : RatingStore) (u i : Nat) : Option ℚ :=
  (s.records.find? (fun rec => decide (sameKey u i rec))).map (fun rec => rec.rating)

/-- Number of stored RatingRecords. -/
def storeSize (s : RatingStore) : Nat :=
  s.records.length

/-- The RatingStore invariant: at most one rating per (user_id, item_id)
pair. -/
def noDupKeys (recs : List RatingRecord) : Prop :=
  recs.Pairwise (fun a b => ¬(a.user_id = b.user_id ∧ a.item_id = b.item_id))

/-- Mean of all observed ratings; unrated pairs are simply absent from the
record list and contribute nothing. -/
def meanRating (s : RatingStore) : ℚ :=
  (s.records.map (fun rec => rec.rating)).sum / (s.records.length : ℚ)

/-- Dot product of two latent vectors. -/
def dotL : List ℚ → List ℚ → ℚ
  | [], _ => 0
  | _, [] => 0
  | a :: v, b :: w => a * b + dotL v w

/-- Componentwise vector sum. -/
def vaddL (v w : List ℚ) : List ℚ :=
  List.zipWith (fun a b => a + b) v w

/-- Componentwise vector difference. -/
def vsubL (v w : List ℚ) : List ℚ :=
  List.zipWith (fun a b => a - b) v w

/-- Scalar multiple of a vector. -/
def smulL (c : ℚ) (v : List ℚ) : List ℚ :=
  v.map (fun a => c * a)

/-- The all-zero vector of the latent dimension. -/
def zeroVec (k : Nat) : List ℚ :=
  List.replicate k 0

/-- Modelled from the spec: a latent factor entry, a scalar bias plus a
fixed-length latent vector. -/
structure FactorEntry where
  bias : ℚ
  vec : List ℚ
deriving DecidableEq

/-- Modelled from the spec: the TrainedModel owns GlobalBias, UserFactors
and ItemFactors (mappings from id to factor entry). -/
structure Model where
  globalBias : ℚ
  userFactors : List (Nat × FactorEntry)
  itemFactors : List (Nat × FactorEntry)
deriving DecidableEq

/-- Modelled from the spec: the hyperparameter record with latent dimension,
learning rate, regularization weight, epoch count and random seed. -/
structure Hyper where
  k : Nat
  lr : ℚ
  reg : ℚ
  epochs : Nat
  seed : Nat
deriving DecidableEq

/-- Association-list lookup by numeric id. -/
def lookupA {β : Type} : List (Nat × β) → Nat → Option β
  | [], _ => none
  | p :: t, key => if p.1 = key then some p.2 else lookupA t key

/-- Association-list insert-or-overwrite by numeric id. -/
def upsertA {β : Type} (key : Nat) (b : β) : List (Nat × β) → List (Nat × β)
  | [] => [(key, b)]
  | p :: t => if p.1 = key then (key, b) :: t else p :: upsertA key b t

/-- Deterministic pseudo-random generator standing in for the seeded random
number source of the spec: a linear congruential step modulo 2^31. -/
def lcg (n : Nat) : Nat :=
  (1103515245 * n + 12345) % 2147483648

/-- A small pseudo-random rational in the interval from -1/10 to 1/10,
standing in for the small-variance random initialization of the spec. -/
def randQ (n : Nat) : ℚ :=
  ((lcg n % 201 : Nat) : ℚ) / 1000 - 1 / 10

/-- Seeded pseudo-random initial latent vector of dimension k. -/
def initVec (seed idn k : Nat) : List ℚ :=
  (List.range k).map (fun j => randQ (seed + 31 * idn + j))

/-- The distinct user ids appearing in the store. -/
def userIds (s : RatingStore) : List Nat :=
  (s.records.map (fun rec => rec.user_id)).dedup

/-- The distinct item ids appearing in the store. -/
def itemIds (s : RatingStore) : List Nat :=
  (s.records.map (fun rec => rec.item_id)).dedup

/-- Modelled from the spec, training initialization: GlobalBias is the mean
of all observed ratings, biases start at 0, and every factor vector is drawn
from the seeded small-variance pseudo-random source. -/
def initModel (s : RatingStore) (hy : Hyper) : Model where
  globalBias := meanRating s
  userFactors := (userIds s).map (fun u => (u, ⟨0, initVec hy.seed u hy.k⟩))
  itemFactors := (itemIds s).map (fun i => (i, ⟨0, initVec (hy.seed + 7919) i hy.k⟩))

/-- The user factor entry before a training step touches it (zero entry for
an id not yet present). -/
def oldUser (hy : Hyper) (m : Model) (rec : RatingRecord) : FactorEntry :=
  (lookupA m.userFactors rec.user_id).getD ⟨0, zeroVec hy.k⟩

/-- The item factor entry before a training step touches it. -/
def oldItem (hy : Hyper) (m : Model) (rec : RatingRecord) : FactorEntry :=
  (lookupA m.itemFactors rec.item_id).getD ⟨0, zeroVec hy.k⟩

/-- The prediction error of one rating against the pre-update model. -/
def sgdError (hy : Hyper) (m : Model) (rec : RatingRecord) : ℚ :=
  rec.rating - (m.globalBias + (oldUser hy m rec).bias + (oldItem hy m rec).bias
    + dotL (oldUser hy m rec).vec (oldItem hy m rec).vec)

/-- Modelled from the spec, the user-side update of one SGD step: bias and
vector updated with the learning rate, the error, the regularization weight
and the pre-update entries of both sides. -/
def newUserEntry (hy : Hyper) (m : Model) (rec : RatingRecord) : FactorEntry :=
  ⟨(oldUser hy m rec).bias + hy.lr * (sgdError hy m rec - hy.reg * (oldUser hy m rec).bias),
   vaddL (oldUser hy m rec).vec
     (smulL hy.lr (vsubL (smulL (sgdError hy m rec) (oldItem hy m rec).vec)
       (smulL hy.reg (oldUser hy m rec).vec)))⟩

/-- Modelled from the spec, the item-side update of one SGD step; its
gradient term uses oldUser, the pre-update user vector. -/
def newItemEntry (hy : Hyper) (m : Model) (rec : RatingRecord) : FactorEntry :=
  ⟨(oldItem hy m rec).bias + hy.lr * (sgdError hy m rec - hy.reg * (oldItem hy m rec).bias),
   vaddL (oldItem hy m rec).vec
     (smulL hy.lr (vsubL (smulL (sgdError hy m rec) (oldUser hy m rec).vec)
       (smulL hy.reg (oldItem hy m rec).vec)))⟩

/-- Modelled from the spec: processing of a single rating during an SGD
epoch.  Both replacement entries are computed from the pre-update model m
before either map is written. -/
def sgdStep (hy : Hyper) (m : Model) (rec : RatingRecord) : Model :=
  { m with
    userFactors := upsertA rec.user_id (newUserEntry hy m rec) m.userFactors
    itemFactors := upsertA rec.item_id (newItemEntry hy m rec) m.itemFactors }

/-- Modelled from the spec: the per-epoch reshuffle, a deterministic
permutation (a rotation keyed by the seeded generator) standing in for the
seeded random order. -/
def shuffleRound (seed : Nat) (l : List RatingRecord) : List RatingRecord :=
  if l.length = 0 then l
  else l.drop (lcg seed % l.length) ++ l.take (lcg seed % l.length)

/-- Modelled from the spec: the epoch loop; epoch e processes the records in
the epoch-specific shuffled order, folding sgdStep over them. -/
def trainLoop (hy : Hyper) (recs : List RatingRecord) (m : Model) : Nat → Model
  | 0 => m
  | e + 1 => (shuffleRound (hy.seed + e) recs).foldl (sgdStep hy) (trainLoop hy recs m e)

/-- Modelled from the spec: train fails with EmptyDatasetError on an empty
store and otherwise runs the fixed number of epochs from the initialized
model. -/
def train (s : RatingStore) (hy : Hyper) : Except RecError Model :=
  if s.records.isEmpty then Except.error RecError.emptyDatasetError
  else Except.ok (trainLoop hy s.records (initModel s hy) hy.epochs)

/-- The model produced by a successful training run (a zero model on
failure). -/
def trainD (s : RatingStore) (hy : Hyper) : Model :=
  match train s hy with
  | Except.ok m => m
  | Except.error _ => ⟨0, [], []⟩

/-- The bias of an optional factor entry, zero when the entry is absent. -/
def biasOrZero : Option FactorEntry → ℚ
  | some e => e.bias
  | none => 0

/-- Modelled from the spec: predict(user_id, item_id) in the default mode
returns GlobalBias + userBias + itemBias + dot(vectors), falling back to
GlobalBias plus whichever bias terms exist when a side was never seen. -/
def predict (m : Model) (u i : Nat) : ℚ :=
  match lookupA m.userFactors u, lookupA m.itemFactors i with
  | some pu, some qi => m.globalBias + pu.bias + qi.bias + dotL pu.vec qi.vec
  | some pu, none => m.globalBias + pu.bias
  | none, some qi => m.globalBias + qi.bias
  | none, none => m.globalBias

/-- Modelled from the spec: prediction with the strict-mode switch; strict
mode raises UnknownEntityError for a cold-start user or item, the default
mode degrades to the bias-only prediction. -/
def predictEx (m : Model) (strict : Bool) (u i : Nat) : Except RecError ℚ :=
  if lookupA m.userFactors u = none ∨ lookupA m.itemFactors i = none then
    if strict then Except.error RecError.unknownEntityError
    else Except.ok (predict m u i)
  else Except.ok (predict m u i)

/-- Concrete store used by witnesses: range 1 to 5, three ratings. -/
def demoStore : RatingStore :=
  ⟨1, 5, [⟨1, 1, 5⟩, ⟨1, 2, 1⟩, ⟨2, 1, 4⟩]⟩

/-- Concrete hyperparameters used by witnesses. -/
def demoHyper : Hyper :=
  ⟨2, 1 / 100, 1 / 50, 1, 42⟩

/-- Concrete model used by the cold-start witness: user 1 is known, item 3
is known, everything else is cold. -/
def coldModel : Model :=
  ⟨7 / 2, [(1, ⟨1 / 4, [1 / 2]⟩)], [(3, ⟨-(1 / 8), [2]⟩)]⟩

end SpecCore

namespace MovieLens

theorem orderedInsert_congr {α : Type} (r₁ r₂ : α → α → Prop)
    [DecidableRel r₁] [DecidableRel r₂] (a : α) (l : List α)
    (h : ∀ b ∈ l, r₁ a b ↔ r₂ a b) :
    l.orderedInsert r₁ a = l.orderedInsert r₂ a := by
  induction l with
  | nil => rfl
  | cons b t ih =>
    simp only [List.orderedInsert]
    by_cases hb : r₁ a b
    · rw [if_pos hb, if_pos ((h b (by simp)).mp hb)]
    · rw [if_neg hb, if_neg (fun h2 => hb ((h b (by simp)).mpr h2)),
        ih (fun c hc => h c (by simp [hc]))]

theorem insertionSort_congr {α : Type} (r₁ r₂ : α → α → Prop)
    [DecidableRel r₁] [DecidableRel r₂] (l : List α)
    (h : l.Pairwise (fun a b => r₁ a b ↔ r₂ a b)) :
    l.insertionSort r₁ = l.insertionSort r₂ := by
  induction l with
  | nil => rfl
  | cons a t ih =>
    rw [List.pairwise_cons] at h
    simp only [List.insertionSort]
    rw [ih h.2]
    exact orderedInsert_congr r₁ r₂ a _
      (fun b hb => h.1 b ((List.mem_insertionSort _).mp hb))

/-- C1: every item id returned by recommend_movies is absent from the list of
item ids already rated by the queried user; already-rated movies are excluded
from the returned top-N recommendations. -/
theorem recommend_excludes_rated (preds : Nat → Nat → ℚ) (userID : Nat)
    (movies : List Movie) (ratings : List MLRow) (n : Nat) (m : Movie)
    (hm : m ∈ recommend_movies preds userID movies ratings n) :
    m.movieID ∉ ratedMovieIds ratings userID := by
  unfold recommend_movies at hm
  have h1 : m ∈ (movies.filter
      (fun m => !decide (m.movieID ∈ ratedMovieIds ratings userID))).insertionSort
      (fun a b => preds (userID - 1) b.movieID ≤ preds (userID - 1) a.movieID) :=
    List.take_subset _ _ hm
  rw [List.mem_insertionSort] at h1
  have h2 := (List.mem_filter.mp h1).2
  simpa using h2

/-- C1 witness: with user 1 having rated movie 1, the movie with id 2 is in
the recommendation list and its id is not among the rated ids. -/
theorem recommend_excludes_rated_witness :
    (⟨2, "Jumanji", "Adventure"⟩ : Movie).movieID ∉ ratedMovieIds ratingsW 1 :=
  recommend_excludes_rated predsW 1 moviesW ratingsW 2 ⟨2, "Jumanji", "Adventure"⟩
    (by decide)

/-- C3 counterexample: for user 2 the candidates are the three witness
movies, where movies 1 and 3 tie with predicted score 1 while movie 2 scores
3.  The output listing movie 3 before movie 1 is a code-consistent result of
the sort (it is the topN prefix of a permutation sorted descending by
predicted score), yet it differs from the order that breaks ties by
ascending item id: the returned list is not determined to be the
tie-broken-by-item-id order, refuting the claim as stated. -/
theorem recommend_tie_not_itemid_order :
    recommendRel predsW 2 moviesW ratingsW 3
        [⟨2, "Jumanji", "Adventure"⟩, ⟨3, "Grumpier", "Comedy"⟩, ⟨1, "Toy Story", "Animation"⟩]
    ∧ [(⟨2, "Jumanji", "Adventure"⟩ : Movie), ⟨3, "Grumpier", "Comedy"⟩,
        ⟨1, "Toy Story", "Animation"⟩]
      ≠ recommendSpec predsW 2 moviesW ratingsW 3 :=
  ⟨⟨[⟨2, "Jumanji", "Adventure"⟩, ⟨3, "Grumpier", "Comedy"⟩, ⟨1, "Toy Story", "Animation"⟩],
    by decide, by decide, rfl⟩, by decide⟩

/-- C3 (amended): every code-consistent output of recommend_movies is the
first topN elements of a permutation of the scored unrated candidates sorted
in descending order of predicted score; the relative order of candidates
with equal predicted scores is unspecified by the code (sort_values default
quicksort is not stable).  When the candidates have pairwise distinct
predicted scores the descending-sorted permutation is unique, so every
code-consistent output equals the first topN of the specification order
(whose tie-break clause is then vacuous). -/
theorem recommend_sorted_output (preds : Nat → Nat → ℚ) (userID : Nat)
    (movies : List Movie) (ratings : List MLRow) (topN : Nat) (out : List Movie)
    (hdist : (movies.filter
        (fun m => !decide (m.movieID ∈ ratedMovieIds ratings userID))).Pairwise
      (fun a b => preds (userID - 1) a.movieID ≠ preds (userID - 1) b.movieID))
    (hout : recommendRel preds userID movies ratings topN out) :
    out = recommendSpec preds userID movies ratings topN := by
  obtain ⟨sorted, hperm, hsorted, hEq⟩ := hout
  subst hEq
  unfold recommendSpec
  haveI : IsTotal Movie (descScore (preds (userID - 1))) :=
    ⟨fun a b => le_total _ _⟩
  haveI : IsTrans Movie (descScore (preds (userID - 1))) :=
    ⟨fun a b c hab hbc => le_trans hbc hab⟩
  haveI : IsAntisymm Movie (fun a b : Movie =>
      preds (userID - 1) b.movieID < preds (userID - 1) a.movieID ∨ a = b) := by
    constructor
    intro a b hab hba
    rcases hab with h1 | h1
    · rcases hba with h2 | h2
      · exact absurd (h1.trans h2) (lt_irrefl _)
      · exact h2.symm
    · exact h1
  have hdist_sorted : sorted.Pairwise
      (fun a b => preds (userID - 1) a.movieID ≠ preds (userID - 1) b.movieID) :=
    (hperm.pairwise_iff (fun h => Ne.symm h)).mpr hdist
  have hR_sorted : sorted.Pairwise (fun a b : Movie =>
      preds (userID - 1) b.movieID < preds (userID - 1) a.movieID ∨ a = b) :=
    List.Pairwise.imp₂
      (fun a b hab hne => Or.inl (lt_of_le_of_ne hab (fun h2 => hne h2.symm)))
      hsorted hdist_sorted
  have hcongr : (movies.filter
        (fun m => !decide (m.movieID ∈ ratedMovieIds ratings userID))).insertionSort
          (specTieOrder (preds (userID - 1)))
      = (movies.filter
          (fun m => !decide (m.movieID ∈ ratedMovieIds ratings userID))).insertionSort
          (descScore (preds (userID - 1))) := by
    apply insertionSort_congr
    refine hdist.imp ?_
    intro a b hne
    constructor
    · intro hs
      rcases hs with hlt | ⟨heq, _⟩
      · exact le_of_lt hlt
      · exact le_of_eq heq.symm
    · intro hle
      exact Or.inl (lt_of_le_of_ne hle (fun h2 => hne h2.symm))
  have hperm_iS := List.perm_insertionSort (descScore (preds (userID - 1)))
    (movies.filter (fun m => !decide (m.movieID ∈ ratedMovieIds ratings userID)))
  have hsorted_iS := List.sorted_insertionSort (descScore (preds (userID - 1)))
    (movies.filter (fun m => !decide (m.movieID ∈ ratedMovieIds ratings userID)))
  have hdist_iS := (hperm_iS.pairwise_iff (fun h => Ne.symm h)).mpr hdist
  have hR_iS : ((movies.filter
      (fun m => !decide (m.movieID ∈ ratedMovieIds ratings userID))).insertionSort
        (descScore (preds (userID - 1)))).Pairwise (fun a b : Movie =>
      preds (userID - 1) b.movieID < preds (userID - 1) a.movieID ∨ a = b) :=
    List.Pairwise.imp₂
      (fun a b hab hne => Or.inl (lt_of_le_of_ne hab (fun h2 => hne h2.symm)))
      hsorted_iS hdist_iS
  rw [hcongr]
  congr 1
  exact List.eq_of_perm_of_sorted (hperm.trans hperm_iS.symm) hR_sorted hR_iS

/-- C3 (amended) witness: for user 1 the two unrated candidates have the
distinct scores 3 and 1, so the code-consistent output is unique and equals
the specification order. -/
theorem recommend_sorted_output_witness :
    [(⟨2, "Jumanji", "Adventure"⟩ : Movie), ⟨3, "Grumpier", "Comedy"⟩]
      = recommendSpec predsW 1 moviesW ratingsW 2 :=
  recommend_sorted_output predsW 1 moviesW ratingsW 2
    [⟨2, "Jumanji", "Adventure"⟩, ⟨3, "Grumpier", "Comedy"⟩]
    (by decide)
    ⟨[⟨2, "Jumanji", "Adventure"⟩, ⟨3, "Grumpier", "Comedy"⟩], by decide, by decide, rfl⟩

/-- C10: the recommendation list has exactly min(num_recommendations, number
of unrated candidate movies) rows: never more than num_recommendations, and
all unrated candidates when fewer of them exist than num_recommendations. -/
theorem recommend_movies_length (preds : Nat → Nat → ℚ) (userID : Nat)
    (movies : List Movie) (ratings : List MLRow) (n : Nat) :
    (recommend_movies preds userID movies ratings n).length
      = min n (movies.filter
          (fun m => !decide (m.movieID ∈ ratedMovieIds ratings userID))).length := by
  unfold recommend_movies
  rw [List.length_take, List.length_insertionSort]

end MovieLens

namespace Netflix

theorem mem_dropMovieList (df : List NfRow) (b : ℚ) (m : Nat) :
    m ∈ dropMovieList df b ↔ m ∈ movieIdList df ∧ (movieReviewCount df m : ℚ) < b := by
  unfold dropMovieList
  simp [List.mem_filter]

theorem mem_dropCustList (df : List NfRow) (b : ℚ) (c : Nat) :
    c ∈ dropCustList df b ↔ c ∈ custIdList df ∧ (custReviewCount df c : ℚ) < b := by
  unfold dropCustList
  simp [List.mem_filter]

theorem movieId_mem_idList (df : List NfRow) (r : NfRow) (h : r ∈ df) :
    r.movieId ∈ movieIdList df := by
  unfold movieIdList
  rw [List.mem_dedup]
  exact List.mem_map_of_mem _ h

theorem custId_mem_idList (df : List NfRow) (r : NfRow) (h : r ∈ df) :
    r.custId ∈ custIdList df := by
  unfold custIdList
  rw [List.mem_dedup]
  exact List.mem_map_of_mem _ h

/-- C9: a row survives the data-slicing (trim) step of the Netflix notebook
exactly when its Movie_Id has a pre-trim review count of at least the movie
benchmark and its Cust_Id has a pre-trim review count of at least the
customer benchmark; in particular every surviving row meets both thresholds
and no row meeting both thresholds is removed. -/
theorem trim_mem (df : List NfRow) (r : NfRow) :
    r ∈ trimmed df ↔ r ∈ df ∧ movieBenchmark df ≤ (movieReviewCount df r.movieId : ℚ)
      ∧ custBenchmark df ≤ (custReviewCount df r.custId : ℚ) := by
  unfold trimmed
  simp only [List.mem_filter, Bool.not_eq_true', decide_eq_false_iff_not,
    mem_dropMovieList, mem_dropCustList, not_and, not_lt]
  constructor
  · rintro ⟨⟨hdf, hm⟩, hc⟩
    exact ⟨hdf, hm (movieId_mem_idList df r hdf), hc (custId_mem_idList df r hdf)⟩
  · rintro ⟨hdf, hm, hc⟩
    exact ⟨⟨hdf, fun _ => hm⟩, fun _ => hc⟩

end Netflix

namespace SpecCore

theorem mem_upsertRecord (u i : Nat) (r : ℚ) (recs : List RatingRecord) (b : RatingRecord)
    (h : b ∈ upsertRecord u i r recs) : b ∈ recs ∨ b = ⟨u, i, r⟩ := by
  induction recs with
  | nil =>
    simp only [upsertRecord, List.mem_singleton] at h
    exact Or.inr h
  | cons a t ih =>
    simp only [upsertRecord] at h
    by_cases ha : sameKey u i a
    · rw [if_pos ha] at h
      rcases List.mem_cons.mp h with hb | hb
      · exact Or.inr hb
      · exact Or.inl (List.mem_cons_of_mem a hb)
    · rw [if_neg ha] at h
      rcases List.mem_cons.mp h with hb | hb
      · exact Or.inl (hb ▸ List.mem_cons_self a t)
      · rcases ih hb with hb2 | hb2
        · exact Or.inl (List.mem_cons_of_mem a hb2)
        · exact Or.inr hb2

theorem exists_sameKey_upsertRecord (u i : Nat) (r : ℚ) (recs : List RatingRecord) :
    ∃ b ∈ upsertRecord u i r recs, sameKey u i b := by
  induction recs with
  | nil => exact ⟨⟨u, i, r⟩, by simp [upsertRecord], rfl, rfl⟩
  | cons a t ih =>
    simp only [upsertRecord]
    by_cases ha : sameKey u i a
    · rw [if_pos ha]
      exact ⟨⟨u, i, r⟩, List.mem_cons_self _ _, rfl, rfl⟩
    · rw [if_neg ha]
      obtain ⟨b, hb, hkey⟩ := ih
      exact ⟨b, List.mem_cons_of_mem a hb, hkey⟩

theorem length_upsertRecord_of_exists (u i : Nat) (r : ℚ) (recs : List RatingRecord)
    (h : ∃ b ∈ recs, sameKey u i b) :
    (upsertRecord u i r recs).length = recs.length := by
  induction recs with
  | nil => simp at h
  | cons a t ih =>
    simp only [upsertRecord]
    by_cases ha : sameKey u i a
    · rw [if_pos ha]
      simp
    · rw [if_neg ha]
      obtain ⟨b, hb, hkey⟩ := h
      rcases List.mem_cons.mp hb with hb2 | hb2
      · exact absurd (hb2 ▸ hkey) ha
      · simp [ih ⟨b, hb2, hkey⟩]

theorem find?_upsertRecord (u i : Nat) (r : ℚ) (recs : List RatingRecord) :
    ((upsertRecord u i r recs).find? (fun rec => decide (sameKey u i rec))).map
      (fun rec => rec.rating) = some r := by
  induction recs with
  | nil =>
    simp [upsertRecord, List.find?, sameKey]
  | cons a t ih =>
    simp only [upsertRecord]
    by_cases ha : sameKey u i a
    · rw [if_pos ha]
      simp [List.find?, sameKey]
    · rw [if_neg ha]
      rw [List.find?_cons_of_neg _ (by simpa using ha)]
      exact ih

theorem noDupKeys_upsertRecord (u i : Nat) (r : ℚ) (recs : List RatingRecord)
    (h : noDupKeys recs) : noDupKeys (upsertRecord u i r recs) := by
  induction recs with
  | nil => simp [upsertRecord, noDupKeys]
  | cons a t ih =>
    rw [noDupKeys, List.pairwise_cons] at h
    simp only [upsertRecord]
    by_cases ha : sameKey u i a
    · rw [if_pos ha]
      rw [noDupKeys, List.pairwise_cons]
      refine ⟨?_, h.2⟩
      intro b hb hcontra
      exact h.1 b hb ⟨ha.1.trans hcontra.1, ha.2.trans hcontra.2⟩
    · rw [if_neg ha]
      rw [noDupKeys, List.pairwise_cons]
      refine ⟨?_, ih h.2⟩
      intro b hb
      rcases mem_upsertRecord u i r t b hb with hb2 | hb2
      · exact h.1 b hb2
      · rw [hb2]
        exact ha

theorem ingest_eq_ok (s : RatingStore) (u i : Nat) (r : ℚ)
    (h : s.minRating ≤ r ∧ r ≤ s.maxRating) :
    ingest s u i r = Except.ok { s with records := upsertRecord u i r s.records } := by
  unfold ingest
  rw [if_neg]
  rintro (hlt | hgt)
  · exact absurd h.1 (not_le.mpr hlt)
  · exact absurd h.2 (not_le.mpr hgt)

theorem ingestD_records (s : RatingStore) (u i : Nat) (r : ℚ)
    (h : s.minRating ≤ r ∧ r ≤ s.maxRating) :
    ingestD s u i r = { s with records := upsertRecord u i r s.records } := by
  unfold ingestD
  rw [ingest_eq_ok s u i r h]

/-- C5: ingesting a rating exactly at the configured minimum or maximum
succeeds; any rating outside the range, in particular one unit below the
minimum or above the maximum, fails with InvalidRatingError, and the
resulting store of a failed ingest is the unchanged input store. -/
theorem ingest_boundary (s : RatingStore) (u i : Nat) (r : ℚ)
    (hminmax : s.minRating ≤ s.maxRating) (hout : r < s.minRating ∨ s.maxRating < r) :
    ingest s u i s.minRating = Except.ok (ingestD s u i s.minRating)
    ∧ ingest s u i s.maxRating = Except.ok (ingestD s u i s.maxRating)
    ∧ ingest s u i r = Except.error RecError.invalidRatingError
    ∧ ingest s u i (s.minRating - 1) = Except.error RecError.invalidRatingError
    ∧ ingest s u i (s.maxRating + 1) = Except.error RecError.invalidRatingError
    ∧ ingestD s u i r = s := by
  have hmin : s.minRating ≤ s.minRating ∧ s.minRating ≤ s.maxRating := ⟨le_refl _, hminmax⟩
  have hmax : s.minRating ≤ s.maxRating ∧ s.maxRating ≤ s.maxRating := ⟨hminmax, le_refl _⟩
  have herr : ingest s u i r = Except.error RecError.invalidRatingError := by
    unfold ingest
    rw [if_pos hout]
  refine ⟨?_, ?_, herr, ?_, ?_, ?_⟩
  · rw [ingest_eq_ok s u i s.minRating hmin, ingestD_records s u i s.minRating hmin]
  · rw [ingest_eq_ok s u i s.maxRating hmax, ingestD_records s u i s.maxRating hmax]
  · unfold ingest
    rw [if_pos (Or.inl (by linarith))]
  · unfold ingest
    rw [if_pos (Or.inr (by linarith))]
  · unfold ingestD
    rw [herr]

/-- C5 witness: on the demo store with range 1 to 5, ingesting 1 and 5
succeeds and ingesting 6, 0 and the one-unit-outside values fails. -/
theorem ingest_boundary_witness :
    ingest demoStore 7 8 demoStore.minRating = Except.ok (ingestD demoStore 7 8 demoStore.minRating)
    ∧ ingest demoStore 7 8 demoStore.maxRating
        = Except.ok (ingestD demoStore 7 8 demoStore.maxRating)
    ∧ ingest demoStore 7 8 6 = Except.error RecError.invalidRatingError
    ∧ ingest demoStore 7 8 (demoStore.minRating - 1) = Except.error RecError.invalidRatingError
    ∧ ingest demoStore 7 8 (demoStore.maxRating + 1) = Except.error RecError.invalidRatingError
    ∧ ingestD demoStore 7 8 6 = demoStore :=
  ingest_boundary demoStore 7 8 6 (by norm_num [demoStore]) (Or.inr (by norm_num [demoStore]))

/-- C6: ingesting twice for the same (user_id, item_id) pair leaves the
store size unchanged relative to ingesting once, the stored value for the
pair is the value of the later ingestion, and the at-most-one-rating-per-pair
invariant is preserved. -/
theorem ingest_overwrite (s : RatingStore) (u i : Nat) (r r2 : ℚ)
    (hr : s.minRating ≤ r ∧ r ≤ s.maxRating)
    (hr2 : s.minRating ≤ r2 ∧ r2 ≤ s.maxRating)
    (hu : noDupKeys s.records) :
    ingest s u i r = Except.ok (ingestD s u i r)
    ∧ ingest (ingestD s u i r) u i r2 = Except.ok (ingestD (ingestD s u i r) u i r2)
    ∧ storeSize (ingestD (ingestD s u i r) u i r2) = storeSize (ingestD s u i r)
    ∧ lookupRating (ingestD s u i r) u i = some r
    ∧ lookupRating (ingestD (ingestD s u i r) u i r2) u i = some r2
    ∧ noDupKeys (ingestD (ingestD s u i r) u i r2).records := by
  have h1 := ingestD_records s u i r hr
  have hr2' : (ingestD s u i r).minRating ≤ r2 ∧ r2 ≤ (ingestD s u i r).maxRating := by
    rw [h1]
    exact hr2
  have h2 := ingestD_records (ingestD s u i r) u i r2 hr2'
  refine ⟨?_, ?_, ?_, ?_, ?_, ?_⟩
  · rw [ingest_eq_ok s u i r hr, h1]
  · rw [ingest_eq_ok (ingestD s u i r) u i r2 hr2', h2]
  · rw [h2]
    unfold storeSize
    simp only
    apply length_upsertRecord_of_exists
    rw [h1]
    exact exists_sameKey_upsertRecord u i r s.records
  · rw [h1]
    unfold lookupRating
    simp only
    exact find?_upsertRecord u i r s.records
  · rw [h2]
    unfold lookupRating
    simp only
    exact find?_upsertRecord u i r2 (ingestD s u i r).records
  · rw [h2]
    simp only
    apply noDupKeys_upsertRecord
    rw [h1]
    exact noDupKeys_upsertRecord u i r s.records hu

/-- C6 witness: overwriting the rating of the pair (1, 1) in the demo store
with 2 and then 3. -/
theorem ingest_overwrite_witness :
    ingest demoStore 1 1 2 = Except.ok (ingestD demoStore 1 1 2)
    ∧ ingest (ingestD demoStore 1 1 2) 1 1 3 = Except.ok (ingestD (ingestD demoStore 1 1 2) 1 1 3)
    ∧ storeSize (ingestD (ingestD demoStore 1 1 2) 1 1 3) = storeSize (ingestD demoStore 1 1 2)
    ∧ lookupRating (ingestD demoStore 1 1 2) 1 1 = some 2
    ∧ lookupRating (ingestD (ingestD demoStore 1 1 2) 1 1 3) 1 1 = some 3
    ∧ noDupKeys (ingestD (ingestD demoStore 1 1 2) 1 1 3).records :=
  ingest_overwrite demoStore 1 1 2 3 (by norm_num [demoStore]) (by norm_num [demoStore])
    (by unfold noDupKeys demoStore; decide)

theorem sgdStep_globalBias (hy : Hyper) (m : Model) (rec : RatingRecord) :
    (sgdStep hy m rec).globalBias = m.globalBias :=
  rfl

theorem foldl_sgdStep_globalBias (hy : Hyper) (l : List RatingRecord) (m : Model) :
    (l.foldl (sgdStep hy) m).globalBias = m.globalBias := by
  induction l generalizing m with
  | nil => rfl
  | cons a t ih => rw [List.foldl_cons, ih, sgdStep_globalBias]

theorem trainLoop_globalBias (hy : Hyper) (recs : List RatingRecord) (m : Model) (e : Nat) :
    (trainLoop hy recs m e).globalBias = m.globalBias := by
  induction e with
  | zero => rfl
  | succ e ih => rw [trainLoop, foldl_sgdStep_globalBias, ih]

theorem train_unfold (s : RatingStore) (hy : Hyper) (h : s.records ≠ []) :
    train s hy = Except.ok (trainLoop hy s.records (initModel s hy) hy.epochs) := by
  have hne : s.records.isEmpty = false := by
    cases hrec : s.records with
    | nil => exact absurd hrec h
    | cons a t => rfl
  unfold train
  rw [hne]
  rfl

theorem train_eq_ok (s : RatingStore) (hy : Hyper) (h : s.records ≠ []) :
    train s hy = Except.ok (trainD s hy) := by
  have htr := train_unfold s hy h
  unfold trainD
  rw [htr]

/-- C4: at training start GlobalBias is set to the arithmetic mean of all
observed ratings (absent pairs contribute nothing to meanRating), and no
training step modifies it afterwards: for every epoch count the trained
model carries exactly that mean. -/
theorem train_globalBias (s : RatingStore) (hy : Hyper) (h : s.records ≠ []) :
    train s hy = Except.ok (trainD s hy) ∧ (trainD s hy).globalBias = meanRating s := by
  have htr := train_unfold s hy h
  have hD : trainD s hy = trainLoop hy s.records (initModel s hy) hy.epochs := by
    unfold trainD
    rw [htr]
  refine ⟨train_eq_ok s hy h, ?_⟩
  rw [hD, trainLoop_globalBias]
  rfl

/-- C4 witness: on the demo store the trained model carries the mean 10/3 of
the three observed ratings 5, 1 and 4. -/
theorem train_globalBias_witness :
    train demoStore demoHyper = Except.ok (trainD demoStore demoHyper)
    ∧ (trainD demoStore demoHyper).globalBias = meanRating demoStore :=
  train_globalBias demoStore demoHyper (by decide)

/-- C7: prediction is deterministic: two training runs from the same
RatingStore and the same hyperparameters (including the seed) yield models
whose predictions agree on every (user, item) query. -/
theorem predict_two_runs (s : RatingStore) (hy : Hyper) (m1 m2 : Model) (u i : Nat)
    (h1 : train s hy = Except.ok m1) (h2 : train s hy = Except.ok m2) :
    predict m1 u i = predict m2 u i := by
  rw [h1] at h2
  injection h2 with h3
  rw [h3]

/-- C7 witness: two runs of train on the demo store produce the same
prediction for the pair (1, 1). -/
theorem predict_two_runs_witness :
    predict (trainD demoStore demoHyper) 1 1 = predict (trainD demoStore demoHyper) 1 1 := by
  have hEq : train demoStore demoHyper = Except.ok (trainD demoStore demoHyper) :=
    train_eq_ok demoStore demoHyper (by decide)
  exact predict_two_runs demoStore demoHyper _ _ 1 1 hEq hEq

/-- C2: on a cold-start query, where the user or the item was never seen
during training, default-mode prediction returns GlobalBias plus whichever
of the two biases exists without raising an error, while strict mode raises
UnknownEntityError. -/
theorem predict_cold_start (m : Model) (u i : Nat)
    (h : lookupA m.userFactors u = none ∨ lookupA m.itemFactors i = none) :
    predictEx m false u i
      = Except.ok (m.globalBias + biasOrZero (lookupA m.userFactors u)
          + biasOrZero (lookupA m.itemFactors i))
    ∧ predictEx m true u i = Except.error RecError.unknownEntityError := by
  unfold predictEx predict
  rcases hu : lookupA m.userFactors u with _ | pu <;>
    rcases hi : lookupA m.itemFactors i with _ | qi
  · simp [biasOrZero]
  · simp [biasOrZero]
  · simp [biasOrZero]
  · rw [hu, hi] at h
    rcases h with h | h <;> exact absurd h (by simp)

/-- C2 witness: in coldModel the user 1 is known and the item 9 is unknown;
default mode returns GlobalBias plus the known user bias, strict mode
errors. -/
theorem predict_cold_start_witness :
    predictEx coldModel false 1 9
      = Except.ok (coldModel.globalBias + biasOrZero (lookupA coldModel.userFactors 1)
          + biasOrZero (lookupA coldModel.itemFactors 9))
    ∧ predictEx coldModel true 1 9 = Except.error RecError.unknownEntityError :=
  predict_cold_start coldModel 1 9 (Or.inr (by decide))

theorem lookupA_upsertA_self {β : Type} (key : Nat) (b : β) (l : List (Nat × β)) :
    lookupA (upsertA key b l) key = some b := by
  induction l with
  | nil => simp [upsertA, lookupA]
  | cons p t ih =>
    simp only [upsertA]
    by_cases hp : p.1 = key
    · rw [if_pos hp]
      simp [lookupA]
    · rw [if_neg hp]
      simp only [lookupA]
      rw [if_neg hp]
      exact ih

/-- C8: processing one rating during an SGD epoch writes, for the rating's
user and item, entries that are computed entirely from the pre-update model:
the user update uses the pre-update item vector (oldItem) and the item
update uses the pre-update user vector (oldUser), with the shared error term
also evaluated on the pre-update model. -/
theorem sgdStep_pre_update (hy : Hyper) (m : Model) (rec : RatingRecord) :
    lookupA (sgdStep hy m rec).userFactors rec.user_id
      = some ⟨(oldUser hy m rec).bias
            + hy.lr * (sgdError hy m rec - hy.reg * (oldUser hy m rec).bias),
          vaddL (oldUser hy m rec).vec
            (smulL hy.lr (vsubL (smulL (sgdError hy m rec) (oldItem hy m rec).vec)
              (smulL hy.reg (oldUser hy m rec).vec)))⟩
    ∧ lookupA (sgdStep hy m rec).itemFactors rec.item_id
      = some ⟨(oldItem hy m rec).bias
            + hy.lr * (sgdError hy m rec - hy.reg * (oldItem hy m rec).bias),
          vaddL (oldItem hy m rec).vec
            (smulL hy.lr (vsubL (smulL (sgdError hy m rec) (oldUser hy m rec).vec)
              (smulL hy.reg (oldItem hy m rec).vec)))⟩ :=
  ⟨lookupA_upsertA_self rec.user_id (newUserEntry hy m rec) m.userFactors,
   lookupA_upsertA_self rec.item_id (newItemEntry hy m rec) m.itemFactors⟩

end SpecCore
